import Mathlib

/-!
# Verification of the Screen-Gamma-Tuner core

Shallow embedding of `src/screengamma.py` and `src/gui.py`.

The numeric ramp transform (`set_gamma_ramp_all_screens`, lines 31-45 of
`screengamma.py`) is embedded over the real numbers: Python floats are
idealised as `ℝ`, `x ** e` as `Real.rpow`, and `int(v)` (for the
nonnegative `v` produced by the clamps) as `Int.toNat ∘ Int.floor`.

The GUI session (`gui.py`) is embedded as explicit state passing over a
`World` that records the hardware ramp and the trace of driver / config
I/O events.
-/

namespace ScreenGamma

/-- Python `max(0.0, min(1.0, val))` from `screengamma.py` lines 39 and 42. -/
def clamp01 (x : ℝ) : ℝ := max 0 (min 1 x)

/-- Line 35-36: `normalized = i / 255.0`, then
`gamma_corrected = normalized ** (1.0 / max(gamma, 0.1))`. -/
noncomputable def gamma_corrected (g : ℝ) (i : Fin 256) : ℝ :=
  ((i.val : ℝ) / 255) ^ (1 / max g 0.1)

/-- Lines 37-42: brightness shift, clamp, contrast, clamp.
The value of the loop variable `val` just before line 43. -/
noncomputable def finalVal (g b c : ℝ) (i : Fin 256) : ℝ :=
  clamp01 ((clamp01 (gamma_corrected g i + b * 0.3) - 0.5) * c + 0.5)

/-- Line 43: `val_16bit = int(val * 65535)`.  `val` is in `[0,1]` so the
Python truncation toward zero is the floor. -/
noncomputable def val_16bit (g b c : ℝ) (i : Fin 256) : ℕ :=
  (Int.floor (finalVal g b c i * 65535)).toNat

/-! Basic bounds on the transform. -/

theorem clamp01_nonneg (x : ℝ) : 0 ≤ clamp01 x := le_max_left 0 _

theorem clamp01_le_one (x : ℝ) : clamp01 x ≤ 1 :=
  max_le (by norm_num) (min_le_left 1 x)

theorem clamp01_mono {x y : ℝ} (h : x ≤ y) : clamp01 x ≤ clamp01 y :=
  max_le_max le_rfl (min_le_min le_rfl h)

theorem clamp01_of_mem {x : ℝ} (h0 : 0 ≤ x) (h1 : x ≤ 1) : clamp01 x = x := by
  unfold clamp01
  rw [min_eq_right h1, max_eq_right h0]

theorem finalVal_nonneg (g b c : ℝ) (i : Fin 256) : 0 ≤ finalVal g b c i :=
  clamp01_nonneg _

theorem finalVal_le_one (g b c : ℝ) (i : Fin 256) : finalVal g b c i ≤ 1 :=
  clamp01_le_one _

/-- The truncated 16-bit value never exceeds 65535. -/
theorem val_16bit_le (g b c : ℝ) (i : Fin 256) : val_16bit g b c i ≤ 65535 := by
  unfold val_16bit
  have h1 : finalVal g b c i * 65535 ≤ 65535 := by
    have := finalVal_le_one g b c i
    nlinarith
  have h2 : Int.floor (finalVal g b c i * 65535) ≤ (65535 : ℤ) := by
    have := Int.floor_le_floor h1
    simpa using this
  omega

/-- `int(val * 65535)` agrees with the mathematical floor: no negative
value is silently truncated by `Int.toNat`. -/
theorem val_16bit_eq_floor (g b c : ℝ) (i : Fin 256) :
    (val_16bit g b c i : ℤ) = Int.floor (finalVal g b c i * 65535) := by
  unfold val_16bit
  have h0 : (0 : ℤ) ≤ Int.floor (finalVal g b c i * 65535) := by
    have : (0 : ℝ) ≤ finalVal g b c i * 65535 := by
      have := finalVal_nonneg g b c i
      nlinarith
    exact Int.floor_nonneg.mpr this
  omega

/-! ## The gamma table (ctypes `GammaRamp` structure, lines 9-14) -/

/-- `GammaRamp`: three arrays of 256 unsigned 16-bit values.  Entries are
modelled as `ℕ`; the range bound `≤ 65535` is proved, not assumed. -/
structure GammaRamp where
  red : Fin 256 → ℕ
  green : Fin 256 → ℕ
  blue : Fin 256 → ℕ

theorem GammaRamp.ext_iff {t u : GammaRamp}
    (hr : t.red = u.red) (hg : t.green = u.green) (hb : t.blue = u.blue) :
    t = u := by
  cases t; cases u; simp_all

/-- A `ctypes` structure is zero-initialised on construction (line 19:
`ramp = GammaRamp()`). -/
def zeroRamp : GammaRamp := ⟨fun _ => 0, fun _ => 0, fun _ => 0⟩

/-- Line 44: `original.red[i] = original.green[i] = original.blue[i] = v`. -/
def setEntry (t : GammaRamp) (i : Fin 256) (v : ℕ) : GammaRamp :=
  ⟨Function.update t.red i v, Function.update t.green i v, Function.update t.blue i v⟩

/-- The `for i in range(GAMMA_RAMP_SIZE)` loop of lines 34-44, as a fold
over the indices, starting from the buffer `get_gamma_ramp()` returned. -/
noncomputable def rampLoop (g b c : ℝ) (buf : GammaRamp) : GammaRamp :=
  (List.finRange 256).foldl (fun t i => setEntry t i (val_16bit g b c i)) buf

/-! ### Every index is overwritten by the loop -/

theorem rampLoop_aux (g b c : ℝ) (l : List (Fin 256)) (buf : GammaRamp) (i : Fin 256) :
    ((l.foldl (fun t j => setEntry t j (val_16bit g b c j)) buf).red i
        = if i ∈ l then val_16bit g b c i else buf.red i)
    ∧ ((l.foldl (fun t j => setEntry t j (val_16bit g b c j)) buf).green i
        = if i ∈ l then val_16bit g b c i else buf.green i)
    ∧ ((l.foldl (fun t j => setEntry t j (val_16bit g b c j)) buf).blue i
        = if i ∈ l then val_16bit g b c i else buf.blue i) := by
  induction l generalizing buf with
  | nil => simp
  | cons a l ih =>
    rcases ih (setEntry buf a (val_16bit g b c a)) with ⟨h1, h2, h3⟩
    refine ⟨?_, ?_, ?_⟩
    · simp only [List.foldl_cons]
      rw [h1]
      by_cases hil : i ∈ l
      · simp [hil]
      · by_cases hia : i = a
        · subst hia; simp [hil, setEntry]
        · simp [hil, hia, setEntry, Function.update_noteq hia]
    · simp only [List.foldl_cons]
      rw [h2]
      by_cases hil : i ∈ l
      · simp [hil]
      · by_cases hia : i = a
        · subst hia; simp [hil, setEntry]
        · simp [hil, hia, setEntry, Function.update_noteq hia]
    · simp only [List.foldl_cons]
      rw [h3]
      by_cases hil : i ∈ l
      · simp [hil]
      · by_cases hia : i = a
        · subst hia; simp [hil, setEntry]
        · simp [hil, hia, setEntry, Function.update_noteq hia]

theorem rampLoop_red (g b c : ℝ) (buf : GammaRamp) (i : Fin 256) :
    (rampLoop g b c buf).red i = val_16bit g b c i := by
  have h := (rampLoop_aux g b c (List.finRange 256) buf i).1
  simpa [rampLoop, List.mem_finRange] using h

theorem rampLoop_green (g b c : ℝ) (buf : GammaRamp) (i : Fin 256) :
    (rampLoop g b c buf).green i = val_16bit g b c i := by
  have h := (rampLoop_aux g b c (List.finRange 256) buf i).2.1
  simpa [rampLoop, List.mem_finRange] using h

theorem rampLoop_blue (g b c : ℝ) (buf : GammaRamp) (i : Fin 256) :
    (rampLoop g b c buf).blue i = val_16bit g b c i := by
  have h := (rampLoop_aux g b c (List.finRange 256) buf i).2.2
  simpa [rampLoop, List.mem_finRange] using h

/-! ## The GUI session (`gui.py`), as explicit state passing

Driver and config-file I/O is recorded in an event trace so that claims
about call counts and ordering can be stated. -/

/-- The `{gamma, brightness, contrast}` record of `config.json`
(`load_config` / `save_config`, `gui.py` lines 83-99). -/
structure Config where
  gamma : ℝ
  brightness : ℝ
  contrast : ℝ

/-- One observable I/O action of the program. -/
inductive Event
  | readRamp
  | writeRamp (t : GammaRamp)
  | saveConfigFile (c : Config)

/-- `gui.py` line 91: defaults used when the file is missing or unreadable. -/
def defaultConfig : Config := ⟨1.0, 0.0, 1.0⟩

/-- `load_config` (lines 83-91): the parsed file, or defaults. -/
def load_config (file : Option Config) : Config := file.getD defaultConfig

/-- The world outside the session: current hardware ramp, whether
`GetDeviceGammaRamp` succeeds, and the trace of I/O events so far. -/
structure World where
  hwRamp : GammaRamp
  readOk : Bool
  events : List Event

/-- `get_gamma_ramp` (`screengamma.py` lines 16-22).  The Boolean result
of `GetDeviceGammaRamp` is ignored; on failure the zero-initialised
`ctypes` buffer is returned unchanged. -/
def get_gamma_ramp (w : World) : GammaRamp × World :=
  (if w.readOk then w.hwRamp else zeroRamp,
   { w with events := w.events ++ [Event.readRamp] })

/-- `set_gamma_ramp` (`screengamma.py` lines 24-29): one driver write. -/
def set_gamma_ramp (r : GammaRamp) (w : World) : World :=
  { w with hwRamp := r, events := w.events ++ [Event.writeRamp r] }

/-- `set_gamma_ramp_all_screens` (`screengamma.py` lines 31-45): read the
current ramp into a buffer, overwrite every entry, write it back. -/
noncomputable def set_gamma_ramp_all_screens (g b c : ℝ) (w : World) : World :=
  let p := get_gamma_ramp w
  set_gamma_ramp (rampLoop g b c p.1) p.2

/-- The mutable state of `ScreenGammaGUI` that the core claims concern:
the captured original ramp, the three slider variables, `self.config`. -/
structure ScreenGammaGUI where
  original_ramp : GammaRamp
  gamma_var : ℝ
  brightness_var : ℝ
  contrast_var : ℝ
  config : Config

/-- `update_gamma` (`gui.py` lines 269-283): apply the current slider
values via `set_gamma_ramp_all_screens`. -/
noncomputable def update_gamma (s : ScreenGammaGUI) (w : World) : World :=
  set_gamma_ramp_all_screens s.gamma_var s.brightness_var s.contrast_var w

/-- `_restore_gamma` (`gui.py` lines 70-75): unconditionally write the
captured original ramp.  There is no `restored` flag in the source. -/
def restore_gamma (s : ScreenGammaGUI) (w : World) : World :=
  set_gamma_ramp s.original_ramp w

/-- `save_to_config` (`gui.py` lines 101-110): overwrite `self.config`
with the live slider values and write it to the file. -/
def save_to_config (s : ScreenGammaGUI) (w : World) : ScreenGammaGUI × World :=
  let c : Config := ⟨s.gamma_var, s.brightness_var, s.contrast_var⟩
  ({ s with config := c }, { w with events := w.events ++ [Event.saveConfigFile c] })

/-- `quit_app` (`gui.py` lines 181-187): save the configuration, then
restore the original ramp, in that order. -/
def quit_app (s : ScreenGammaGUI) (w : World) : ScreenGammaGUI × World :=
  let p := save_to_config s w
  (p.1, restore_gamma p.1 p.2)

/-- `ScreenGammaGUI.__init__` (`gui.py` lines 18-55): capture the original
ramp first (line 19), load the config, set the sliders from it
(`apply_config`), then `update_gamma` (line 52). -/
noncomputable def guiInit (file : Option Config) (w : World) : ScreenGammaGUI × World :=
  let p := get_gamma_ramp w
  let cfg := load_config file
  let s : ScreenGammaGUI := ⟨p.1, cfg.gamma, cfg.brightness, cfg.contrast, cfg⟩
  (s, update_gamma s p.2)

/-- A user/system action after startup: slider movement (each slider
callback and `adjust_value` end in `update_gamma`), `reset`,
`load_from_config`, the Save button, tray Quit, or a termination signal
(whose handler calls `_restore_gamma`). -/
inductive Op
  | slide (g b c : ℝ)
  | reset
  | load
  | save
  | quit
  | sigRestore

/-- One step of the session. -/
noncomputable def runOp (s : ScreenGammaGUI) (w : World) : Op → ScreenGammaGUI × World
  | .slide g b c =>
      let s' := { s with gamma_var := g, brightness_var := b, contrast_var := c }
      (s', update_gamma s' w)
  | .reset =>
      let s' := { s with gamma_var := 1.0, brightness_var := 0.0, contrast_var := 1.0 }
      (s', update_gamma s' w)
  | .load =>
      let s' := { s with
        gamma_var := s.config.gamma
        brightness_var := s.config.brightness
        contrast_var := s.config.contrast }
      (s', update_gamma s' w)
  | .save => save_to_config s w
  | .quit => quit_app s w
  | .sigRestore => (s, restore_gamma s w)

/-- Run a sequence of actions. -/
noncomputable def runOps (s : ScreenGammaGUI) (w : World) : List Op → ScreenGammaGUI × World
  | [] => (s, w)
  | op :: ops =>
      let p := runOp s w op
      runOps p.1 p.2 ops

/-- Number of driver writes in a trace. -/
def countWrites (l : List Event) : ℕ :=
  (l.filter fun e => match e with | Event.writeRamp _ => true | _ => false).length

/-! ## Further lemmas on the transform -/

/-- With the default parameters the transform is the identity on `[0,1]`. -/
theorem finalVal_default (i : Fin 256) : finalVal 1.0 0.0 1.0 i = (i.val : ℝ) / 255 := by
  have h255 : (i.val : ℝ) ≤ 255 := by
    have h := Nat.lt_succ_iff.mp i.isLt
    exact_mod_cast h
  have h0 : (0 : ℝ) ≤ (i.val : ℝ) / 255 := by positivity
  have h1 : (i.val : ℝ) / 255 ≤ 1 := by
    rw [div_le_one (by norm_num : (0:ℝ) < 255)]
    exact h255
  have hg : gamma_corrected 1.0 i = (i.val : ℝ) / 255 := by
    unfold gamma_corrected
    rw [show max (1.0 : ℝ) 0.1 = 1 by norm_num]
    norm_num
  unfold finalVal
  rw [hg, show (i.val : ℝ) / 255 + 0.0 * 0.3 = (i.val : ℝ) / 255 by ring,
    clamp01_of_mem h0 h1,
    show ((i.val : ℝ) / 255 - 0.5) * 1.0 + 0.5 = (i.val : ℝ) / 255 by ring,
    clamp01_of_mem h0 h1]

theorem frac_mul_65535 (i : Fin 256) :
    (i.val : ℝ) / 255 * 65535 = ((257 * i.val : ℕ) : ℝ) := by
  push_cast
  field_simp
  ring

/-- With default parameters the stored value is exactly `257 * i`. -/
theorem val_16bit_default (i : Fin 256) : val_16bit 1.0 0.0 1.0 i = 257 * i.val := by
  unfold val_16bit
  rw [finalVal_default, frac_mul_65535, Int.floor_natCast]
  omega

/-- The transform is monotone in the index whenever `contrast ≥ 0`. -/
theorem finalVal_mono (g b c : ℝ) (hc : 0 ≤ c) {i j : Fin 256} (hij : i ≤ j) :
    finalVal g b c i ≤ finalVal g b c j := by
  have hexp : (0 : ℝ) ≤ 1 / max g 0.1 := by
    have : (0 : ℝ) < max g 0.1 := lt_of_lt_of_le (by norm_num) (le_max_right g 0.1)
    positivity
  have hbase : (i.val : ℝ) / 255 ≤ (j.val : ℝ) / 255 := by
    have : (i.val : ℝ) ≤ (j.val : ℝ) := by exact_mod_cast Fin.le_def.mp hij
    linarith
  have hgc : gamma_corrected g i ≤ gamma_corrected g j :=
    Real.rpow_le_rpow (by positivity) hbase hexp
  unfold finalVal
  apply clamp01_mono
  have h2 : clamp01 (gamma_corrected g i + b * 0.3)
      ≤ clamp01 (gamma_corrected g j + b * 0.3) :=
    clamp01_mono (by linarith)
  nlinarith

/-- The stored value is monotone in the index whenever `contrast ≥ 0`. -/
theorem val_16bit_mono (g b c : ℝ) (hc : 0 ≤ c) {i j : Fin 256} (hij : i ≤ j) :
    val_16bit g b c i ≤ val_16bit g b c j := by
  unfold val_16bit
  have h := finalVal_mono g b c hc hij
  have hf : Int.floor (finalVal g b c i * 65535) ≤ Int.floor (finalVal g b c j * 65535) :=
    Int.floor_le_floor (by nlinarith)
  omega

/-! ## Claim theorems -/

/-- C2: for every `RampParams` input (any gamma, brightness, contrast) and
any buffer read at entry, every entry of the computed table lies in
`[0, 65535]`, and at every index the red, green and blue channel values
are equal (entries are `ℕ`, so the lower bound `0 ≤ _` is by type). -/
theorem ramp_entries_in_range_and_monochrome (g b c : ℝ) (buf : GammaRamp) (i : Fin 256) :
    (rampLoop g b c buf).red i ≤ 65535
    ∧ (rampLoop g b c buf).red i = (rampLoop g b c buf).green i
    ∧ (rampLoop g b c buf).green i = (rampLoop g b c buf).blue i := by
  rw [rampLoop_red, rampLoop_green, rampLoop_blue]
  exact ⟨val_16bit_le g b c i, rfl, rfl⟩

/-- C9: the written table is a function of `(gamma, brightness, contrast)`
alone — every entry of the buffer read at the start of
`set_gamma_ramp_all_screens` is overwritten, so two runs with the same
parameters over different pre-existing hardware ramps (or even a failing
read) leave the driver with the identical table. -/
theorem ramp_write_independent_of_initial_state (g b c : ℝ) (w1 w2 : World) :
    (set_gamma_ramp_all_screens g b c w1).hwRamp
      = (set_gamma_ramp_all_screens g b c w2).hwRamp := by
  simp only [set_gamma_ramp_all_screens, set_gamma_ramp]
  apply GammaRamp.ext_iff <;> funext i <;>
    simp [rampLoop_red, rampLoop_green, rampLoop_blue]

/-- C5: with the default parameters `{gamma := 1.0, brightness := 0.0,
contrast := 1.0}` the computed table is the linear identity ramp:
entry `i` equals `round ((i / 255) * 65535)` exactly. -/
theorem default_params_linear_ramp (buf : GammaRamp) (i : Fin 256) :
    (((rampLoop 1.0 0.0 1.0 buf).red i : ℤ))
      = round ((i.val : ℝ) / 255 * 65535) := by
  rw [rampLoop_red, val_16bit_default, frac_mul_65535, round_natCast]

/-- C4: for `gamma ≥ 0.1` and `contrast > 0` the computed ramp is
monotonically non-decreasing in the index, and every entry (for any
parameters, hence also at the boundary `gamma = 0.1` or contrast near 0)
stays within the 16-bit channel range. -/
theorem ramp_monotone_and_in_range (g b c : ℝ) (buf : GammaRamp)
    (hg : 0.1 ≤ g) (hc : 0 < c) (i j : Fin 256) (hij : i ≤ j) :
    (rampLoop g b c buf).red i ≤ (rampLoop g b c buf).red j
    ∧ ∀ k : Fin 256, (rampLoop g b c buf).red k ≤ 65535 := by
  constructor
  · rw [rampLoop_red, rampLoop_red]
    exact val_16bit_mono g b c hc.le hij
  · intro k
    rw [rampLoop_red]
    exact val_16bit_le g b c k

/-- Witness for `ramp_monotone_and_in_range` at
`gamma = 1.0, brightness = 0.0, contrast = 1.0, i = 0, j = 1`. -/
theorem ramp_monotone_and_in_range_witness :
    (rampLoop 1.0 0.0 1.0 zeroRamp).red 0 ≤ (rampLoop 1.0 0.0 1.0 zeroRamp).red 1
    ∧ ∀ k : Fin 256, (rampLoop 1.0 0.0 1.0 zeroRamp).red k ≤ 65535 :=
  ramp_monotone_and_in_range 1.0 0.0 1.0 zeroRamp (by norm_num) (by norm_num) 0 1 (by decide)

/-! ## Truncation versus rounding (claim C3) -/

/-- At `gamma = 2.0` the transform at index 2 is `√(2/255)`. -/
theorem finalVal_gamma2 : finalVal 2.0 0.0 1.0 (2 : Fin 256) = Real.sqrt (2 / 255) := by
  have hval2 : (((2 : Fin 256).val : ℝ)) = 2 := by norm_num
  have hs0 : (0 : ℝ) ≤ Real.sqrt (2 / 255) := Real.sqrt_nonneg _
  have hs1 : Real.sqrt (2 / 255) ≤ 1 := by
    rw [show (1 : ℝ) = Real.sqrt 1 by rw [Real.sqrt_one]]
    exact Real.sqrt_le_sqrt (by norm_num)
  unfold finalVal gamma_corrected
  rw [hval2, show max (2.0 : ℝ) 0.1 = 2 by norm_num,
    show ((2 : ℝ) / 255) ^ ((1 : ℝ) / 2) = Real.sqrt (2 / 255) from
      (Real.sqrt_eq_rpow _).symm,
    show Real.sqrt (2 / 255) + 0.0 * 0.3 = Real.sqrt (2 / 255) by ring,
    clamp01_of_mem hs0 hs1,
    show (Real.sqrt (2 / 255) - 0.5) * 1.0 + 0.5 = Real.sqrt (2 / 255) by ring,
    clamp01_of_mem hs0 hs1]

theorem sqrt_2_255_bounds :
    (5803.5 : ℝ) ≤ Real.sqrt (2 / 255) * 65535 ∧ Real.sqrt (2 / 255) * 65535 < 5804 := by
  constructor
  · have h : (5803.5 / 65535 : ℝ) ≤ Real.sqrt (2 / 255) := by
      rw [Real.le_sqrt (by norm_num) (by norm_num)]
      norm_num
    nlinarith
  · have h : Real.sqrt (2 / 255) < 5804 / 65535 := by
      rw [Real.sqrt_lt' (by norm_num)]
      norm_num
    nlinarith

/-- C3 counterexample: at `gamma = 2.0, brightness = 0.0, contrast = 1.0`
and index 2 the stored value is `⌊√(2/255)·65535⌋ = 5803`, while rounding
to nearest would give 5804 — `int(val * 65535)` truncates. -/
theorem stored_value_not_round_counterexample :
    ¬ (((rampLoop 2.0 0.0 1.0 zeroRamp).red (2 : Fin 256) : ℤ)
        = round (finalVal 2.0 0.0 1.0 (2 : Fin 256) * 65535)) := by
  rw [rampLoop_red]
  have hb := sqrt_2_255_bounds
  have hfloor : Int.floor (finalVal 2.0 0.0 1.0 (2 : Fin 256) * 65535) = 5803 := by
    rw [finalVal_gamma2, Int.floor_eq_iff]
    constructor
    · push_cast
      linarith [hb.1]
    · push_cast
      linarith [hb.2]
  have hval : ((val_16bit 2.0 0.0 1.0 (2 : Fin 256) : ℕ) : ℤ) = 5803 := by
    rw [val_16bit_eq_floor, hfloor]
  have hround : round (finalVal 2.0 0.0 1.0 (2 : Fin 256) * 65535) = 5804 := by
    rw [finalVal_gamma2, round_eq, Int.floor_eq_iff]
    constructor
    · push_cast
      linarith [hb.1]
    · push_cast
      linarith [hb.2]
  intro h
  rw [hval, hround] at h
  norm_num at h

/-- C3 amended: the stored 16-bit value is the floor (Python `int`
truncation) of `final * 65535`, never negative, and it is within one of
the rounded value: `round - 1 ≤ stored ≤ round`. -/
theorem stored_value_is_floor (g b c : ℝ) (buf : GammaRamp) (i : Fin 256) :
    ((rampLoop g b c buf).red i : ℤ) = Int.floor (finalVal g b c i * 65535)
    ∧ round (finalVal g b c i * 65535) - 1 ≤ ((rampLoop g b c buf).red i : ℤ)
    ∧ ((rampLoop g b c buf).red i : ℤ) ≤ round (finalVal g b c i * 65535) := by
  rw [rampLoop_red]
  have h1 := val_16bit_eq_floor g b c i
  refine ⟨h1, ?_, ?_⟩
  · rw [h1, round_eq]
    have h2 : Int.floor (finalVal g b c i * 65535 + 1 / 2)
        ≤ Int.floor (finalVal g b c i * 65535 + 1) :=
      Int.floor_le_floor (by linarith)
    rw [Int.floor_add_one] at h2
    omega
  · rw [h1, round_eq]
    exact Int.floor_le_floor (by linarith)

/-! ## Session claims -/

/-- A concrete session state for counterexamples. -/
def sampleGUI : ScreenGammaGUI := ⟨zeroRamp, 1.0, 0.0, 1.0, defaultConfig⟩

/-- A concrete initial world for counterexamples. -/
def sampleWorld : World := ⟨zeroRamp, true, []⟩

/-- C1 counterexample: `_restore_gamma` has no `Restored` flag — calling
it twice in a row performs two driver writes, not one. -/
theorem restore_twice_two_writes :
    ¬ (countWrites (restore_gamma sampleGUI (restore_gamma sampleGUI sampleWorld)).events = 1) := by
  simp [restore_gamma, set_gamma_ramp, countWrites, sampleGUI, sampleWorld]

/-- C1 amended: each `_restore_gamma` call performs exactly one driver
write of the original ramp, so two consecutive calls produce two writes;
the calls are idempotent in effect — after either the first or the second
call the hardware ramp is the captured original. -/
theorem restore_repeat_effect (s : ScreenGammaGUI) (w : World) :
    (restore_gamma s (restore_gamma s w)).events
      = w.events ++ [Event.writeRamp s.original_ramp, Event.writeRamp s.original_ramp]
    ∧ (restore_gamma s w).hwRamp = s.original_ramp
    ∧ (restore_gamma s (restore_gamma s w)).hwRamp = s.original_ramp := by
  simp [restore_gamma, set_gamma_ramp]

/-- C6: when the initial `GetDeviceGammaRamp` call fails, `__init__` does
not abort — it silently keeps the zero-initialised `ctypes` buffer as the
"original" snapshot and startup continues with its initial driver write. -/
theorem startup_read_failure_silently_continues (file : Option Config) (hw : GammaRamp) :
    (guiInit file ⟨hw, false, []⟩).1.original_ramp = zeroRamp
    ∧ countWrites (guiInit file ⟨hw, false, []⟩).2.events = 1 := by
  constructor
  · rfl
  · simp [guiInit, get_gamma_ramp, update_gamma, set_gamma_ramp_all_screens,
      set_gamma_ramp, countWrites]

/-- Every single GUI action only appends to the trace. -/
theorem runOp_trace_extends (s : ScreenGammaGUI) (w : World) (op : Op) :
    ∃ l, (runOp s w op).2.events = w.events ++ l := by
  cases op <;>
    simp only [runOp, update_gamma, set_gamma_ramp_all_screens, get_gamma_ramp,
      set_gamma_ramp, save_to_config, quit_app, restore_gamma] <;>
    first
    | exact ⟨_, List.append_assoc _ _ _⟩
    | exact ⟨_, rfl⟩

/-- A run of GUI actions only appends to the trace. -/
theorem runOps_trace_extends (s : ScreenGammaGUI) (w : World) (ops : List Op) :
    ∃ l, (runOps s w ops).2.events = w.events ++ l := by
  induction ops generalizing s w with
  | nil => exact ⟨[], (List.append_nil _).symm⟩
  | cons op ops ih =>
    obtain ⟨l1, h1⟩ := runOp_trace_extends s w op
    obtain ⟨l2, h2⟩ := ih (runOp s w op).1 (runOp s w op).2
    refine ⟨l1 ++ l2, ?_⟩
    calc (runOps s w (op :: ops)).2.events
        = (runOp s w op).2.events ++ l2 := h2
      _ = w.events ++ l1 ++ l2 := by rw [h1]
      _ = w.events ++ (l1 ++ l2) := List.append_assoc _ _ _

/-- The trace of `__init__`: the capture read, then `update_gamma`'s own
read and its write. -/
theorem guiInit_events (file : Option Config) (w : World) :
    (guiInit file w).2.events
      = w.events ++ [Event.readRamp, Event.readRamp,
          Event.writeRamp (rampLoop (load_config file).gamma (load_config file).brightness
            (load_config file).contrast (if w.readOk then w.hwRamp else zeroRamp))] := by
  simp [guiInit, update_gamma, set_gamma_ramp_all_screens, get_gamma_ramp, set_gamma_ramp]

/-- C7: in every execution of the program — startup followed by any
sequence of user/system actions — the very first I/O event is the capture
read of the original ramp, so no table is ever written to the driver
before the original snapshot has been captured.  (There is no
apply-before-start execution: `update_gamma` only exists on a constructed
`ScreenGammaGUI`, whose first action in `__init__` is the capture.) -/
theorem no_write_before_capture (file : Option Config) (hw : GammaRamp) (ok : Bool)
    (ops : List Op) :
    ∃ rest,
      (runOps (guiInit file ⟨hw, ok, []⟩).1 (guiInit file ⟨hw, ok, []⟩).2 ops).2.events
        = Event.readRamp :: rest := by
  obtain ⟨l, hl⟩ :=
    runOps_trace_extends (guiInit file ⟨hw, ok, []⟩).1 (guiInit file ⟨hw, ok, []⟩).2 ops
  refine ⟨[Event.readRamp,
      Event.writeRamp (rampLoop (load_config file).gamma (load_config file).brightness
        (load_config file).contrast (if ok then hw else zeroRamp))] ++ l, ?_⟩
  rw [hl, guiInit_events]
  simp

/-- C8: the captured original snapshot is never mutated — after any
sequence of `update_gamma` applications (slider moves, resets, loads) and
any other actions, `original_ramp` is exactly the value captured at
startup; `restore_gamma` only reads it to write it back. -/
theorem original_ramp_never_mutated (s : ScreenGammaGUI) (w : World) (ops : List Op) :
    (runOps s w ops).1.original_ramp = s.original_ramp := by
  induction ops generalizing s w with
  | nil => rfl
  | cons op ops ih =>
    have h : (runOp s w op).1.original_ramp = s.original_ramp := by
      cases op <;> rfl
    calc (runOps s w (op :: ops)).1.original_ramp
        = (runOp s w op).1.original_ramp := ih _ _
      _ = s.original_ramp := h

/-- C10: tray Quit persists before restoring — `quit_app` first writes the
current slider values to the config file, then writes the original ramp
back to the driver, in that order, and the saved record is exactly the
live `(gamma, brightness, contrast)`. -/
theorem quit_saves_config_then_restores (s : ScreenGammaGUI) (w : World) :
    (quit_app s w).2.events
      = w.events ++ [Event.saveConfigFile ⟨s.gamma_var, s.brightness_var, s.contrast_var⟩,
          Event.writeRamp s.original_ramp]
    ∧ (quit_app s w).1.config = ⟨s.gamma_var, s.brightness_var, s.contrast_var⟩ := by
  simp [quit_app, save_to_config, restore_gamma, set_gamma_ramp]

end ScreenGamma
